import Mathlib

/-!
Shallow embedding of `src/mujoco/mujococontroller.py` (class `MuJoCoController`).

Python floats are modelled as exact rationals; `np.pi` is modelled as the
IEEE-754 double value that numpy uses.  Python lists are Lean lists; Python
list indexing (which accepts negative indices as aliases counted from the
end and raises `IndexError` otherwise) is modelled by `pyIdx` / `pyGet` /
`pySet`.  Methods that can raise return the state reached at the point of
the raise together with the raised error, so that partial mutation before a
raise is visible.  The opaque MuJoCo backend call `mujoco.mj_step` is a
parameter that updates the generalized positions and the sensor data and
leaves the written controls as they are.
-/

/-- Errors raised by the controller methods: Python IndexError from list or
array indexing, the generic `Exception` raised on a violated state
precondition, a numpy ValueError, and a failure coming from the backend. -/
inductive PyErr where
  | indexError
  | invalidState
  | valueError
  | backendError
deriving DecidableEq, Repr

/-- Python list index resolution: a non-negative index must be below the
length; a negative index `i` aliases `length + i` when that is in range. -/
def pyIdx (n : ℕ) (i : ℤ) : Option ℕ :=
  if 0 ≤ i then
    if i < (n : ℤ) then some i.toNat else none
  else
    if -(n : ℤ) ≤ i then some ((n : ℤ) + i).toNat else none

/-- Python list read `xs[i]`. -/
def pyGet {α : Type} (xs : List α) (i : ℤ) : Except PyErr α :=
  match pyIdx xs.length i with
  | some k =>
    match xs[k]? with
    | some v => Except.ok v
    | none => Except.error PyErr.indexError
  | none => Except.error PyErr.indexError

/-- Python list write `xs[i] = v`. -/
def pySet {α : Type} (xs : List α) (i : ℤ) (v : α) : Except PyErr (List α) :=
  match pyIdx xs.length i with
  | some k => Except.ok (xs.set k v)
  | none => Except.error PyErr.indexError

/-- The IEEE-754 double value of `np.pi` (884279719003555 / 2^48), as an
exact rational. -/
def np_pi : ℚ := mkRat 884279719003555 281474976710656

/-- `np.clip(x, lo, hi)`, which is `min (max x lo) hi` (so it returns `hi`
when `lo > hi`, as numpy does). -/
def np_clip (x lo hi : ℚ) : ℚ := min (max x lo) hi

/-- Two-point `np.interp(x, [x0, x1], [y0, y1])`: clamped linear
interpolation, never extrapolation. -/
def np_interp (x x0 x1 y0 y1 : ℚ) : ℚ :=
  if x ≤ x0 then y0
  else if x1 ≤ x then y1
  else y0 + (x - x0) * (y1 - y0) / (x1 - x0)

/-- Round to the nearest integer, ties to even, as Python `round` and numpy
do on doubles. -/
def roundHalfEven (x : ℚ) : ℤ :=
  let f := ⌊x⌋
  let r := x - (f : ℚ)
  if r < 1/2 then f
  else if 1/2 < r then f + 1
  else if f % 2 = 0 then f else f + 1

/-- Python `round(x, 3)`. -/
def np_round3 (x : ℚ) : ℚ := (roundHalfEven (x * 1000) : ℚ) / 1000

/-- Line 208 of the source: the adaptive timestep computed from a commanded
velocity, `round(np.interp(velocity, [np.pi/30, 61*np.pi/30], [0.02, 0.002]), 3)`. -/
def adapt_timestep (velocity : ℚ) : ℚ :=
  np_round3 (np_interp velocity (np_pi / 30) (61 * np_pi / 30) 0.02 0.002)

/-- The state of a `MuJoCoController` object together with the backend model
and data arrays it aliases.  `nu` is `model.nu`; `simul_started` and
`viewer_started` count how many times each thread object was launched
(Python would raise if a thread were started twice; the source guards the
launches with the `running` flag). -/
structure MuJoCoController where
  nu : ℕ
  timestep : ℚ
  running : Bool
  simul_started : ℕ
  viewer_started : ℕ
  torque_enabled : List Bool
  target_velocity : List ℚ
  target_position : List ℚ
  qpos : List ℚ
  ctrl : List ℚ
  sensordata : List ℚ
  actuator_trnid : List ℕ
  jnt_axis : List (ℚ × ℚ × ℚ)
deriving DecidableEq, Repr

/-- Invariant from the construction (section 3 of the design): every
per-servo array has length `nu`. -/
abbrev ArrLen (c : MuJoCoController) : Prop :=
  c.torque_enabled.length = c.nu ∧ c.target_velocity.length = c.nu ∧
  c.target_position.length = c.nu ∧ c.qpos.length = c.nu ∧ c.ctrl.length = c.nu

/-- Lines 78-84 of the source, the per-servo rate-limited command: clamp the
difference to the target into `[-max_step, max_step]` and command the
current position plus the clamped step. -/
def rate_limited_next (target velocity timestep pos : ℚ) : ℚ :=
  let max_step := velocity * timestep
  let diff := target - pos
  let step := np_clip diff (-max_step) max_step
  pos + step

/-- The control command `_step` computes for one torque-enabled servo. -/
def servo_cmd (c : MuJoCoController) (servo : ℕ) : ℚ :=
  rate_limited_next (c.target_position.getD servo 0) (c.target_velocity.getD servo 0)
    c.timestep (c.qpos.getD servo 0)

/-- One iteration of the loop body of `_step` (lines 76-84): a torque-enabled
servo gets a fresh control command, a disabled one is left untouched. -/
def step_servo (c : MuJoCoController) (servo : ℕ) : MuJoCoController :=
  if c.torque_enabled.getD servo false = true then
    { c with ctrl := c.ctrl.set servo (servo_cmd c servo) }
  else c

/-- The whole control-writing loop of `_step` (lines 76-84). -/
def step_ctrl (c : MuJoCoController) : MuJoCoController :=
  (List.range c.nu).foldl step_servo c

/-- The method `_step` (lines 71-86): write the rate-limited commands, then
advance the backend one integration step.  The backend call `mj_step` is a
parameter mapping the generalized positions, the sensor data and the written
controls to new positions and sensor data; it does not write controls. -/
def _step (mj_step : (List ℚ × List ℚ) → List ℚ → List ℚ × List ℚ)
    (c : MuJoCoController) : MuJoCoController :=
  let c1 := step_ctrl c
  let qs := mj_step (c1.qpos, c1.sensordata) c1.ctrl
  { c1 with qpos := qs.1, sensordata := qs.2 }

/-- One pass of the body of `_simul_loop` (lines 88-101) in the case where a
tick is due, with a backend step that may raise.  The loop body has no
handler: a raise in `_step` propagates out of the loop with the state as
mutated so far, and nothing on that path touches `running`. -/
def _simul_loop_iter
    (mj_step : (List ℚ × List ℚ) → List ℚ → Except Unit (List ℚ × List ℚ))
    (c : MuJoCoController) : MuJoCoController × Option PyErr :=
  if c.running = true then
    let c1 := step_ctrl c
    match mj_step (c1.qpos, c1.sensordata) c1.ctrl with
    | Except.ok qs => ({ c1 with qpos := qs.1, sensordata := qs.2 }, none)
    | Except.error _ => (c1, some PyErr.backendError)
  else (c, none)

/-- The method `_start` (lines 61-68): launch both threads only when the
run flag is not yet set. -/
def _start (c : MuJoCoController) : MuJoCoController :=
  if c.running = true then c
  else { c with running := true, simul_started := c.simul_started + 1,
                viewer_started := c.viewer_started + 1 }

/-- The method `close` (lines 120-132): clear the run flag when it is set
and join the threads; the joins do not change the modelled state. -/
def close (c : MuJoCoController) : MuJoCoController :=
  if c.running = true then { c with running := false } else c

/-- The method `factory` (lines 134-142). -/
def factory (c : MuJoCoController) (servo : ℤ) : MuJoCoController × Option PyErr :=
  match pySet c.torque_enabled servo false with
  | Except.ok l => ({ c with torque_enabled := l }, none)
  | Except.error e => (c, some e)

/-- The method `reboot` (lines 144-152). -/
def reboot (c : MuJoCoController) (servo : ℤ) : MuJoCoController × Option PyErr :=
  match pySet c.torque_enabled servo false with
  | Except.ok l => ({ c with torque_enabled := l }, none)
  | Except.error e => (c, some e)

/-- The method `set_torque` (lines 154-163). -/
def set_torque (c : MuJoCoController) (servo : ℤ) (value : Bool) :
    MuJoCoController × Option PyErr :=
  match pySet c.torque_enabled servo value with
  | Except.ok l => ({ c with torque_enabled := l }, none)
  | Except.error e => (c, some e)

/-- The method `get_torque` (lines 165-176). -/
def get_torque (c : MuJoCoController) (servo : ℤ) : Except PyErr Bool :=
  pyGet c.torque_enabled servo

/-- The method `get_force` (lines 178-194): raise when torque is disabled,
otherwise project the three sensed torque components of the joint of the
actuator onto the joint axis. -/
def get_force (c : MuJoCoController) (servo : ℤ) : Except PyErr ℚ :=
  match pyGet c.torque_enabled servo with
  | Except.error e => Except.error e
  | Except.ok te =>
    if te = true then
      match pyGet c.actuator_trnid servo with
      | Except.error e => Except.error e
      | Except.ok joint =>
        match pyGet c.jnt_axis (joint : ℤ) with
        | Except.error e => Except.error e
        | Except.ok axes =>
          match (c.sensordata.drop (3 * joint)).take 3 with
          | [tx, ty, tz] => Except.ok (axes.1 * tx + axes.2.1 * ty + axes.2.2 * tz)
          | _ => Except.error PyErr.valueError
    else Except.error PyErr.invalidState

/-- The method `set_velocity` (lines 196-209): raise when torque is enabled;
otherwise first update the shared adaptive timestep, then store the target
velocity. -/
def set_velocity (c : MuJoCoController) (servo : ℤ) (velocity : ℚ) :
    MuJoCoController × Option PyErr :=
  match pyGet c.torque_enabled servo with
  | Except.error e => (c, some e)
  | Except.ok te =>
    if te = true then (c, some PyErr.invalidState)
    else
      let c1 := { c with timestep := adapt_timestep velocity }
      match pySet c1.target_velocity servo velocity with
      | Except.ok l => ({ c1 with target_velocity := l }, none)
      | Except.error e => (c1, some e)

/-- The method `get_velocity` (lines 211-222). -/
def get_velocity (c : MuJoCoController) (servo : ℤ) : Except PyErr ℚ :=
  pyGet c.target_velocity servo

/-- The method `set_position` (lines 224-235): raise when torque is
disabled, otherwise store the target position. -/
def set_position (c : MuJoCoController) (servo : ℤ) (position : ℚ) :
    MuJoCoController × Option PyErr :=
  match pyGet c.torque_enabled servo with
  | Except.error e => (c, some e)
  | Except.ok te =>
    if te = false then (c, some PyErr.invalidState)
    else
      match pySet c.target_position servo position with
      | Except.ok l => ({ c with target_position := l }, none)
      | Except.error e => (c, some e)

/-- The method `get_position` (lines 237-248): read the live generalized
position from the backend. -/
def get_position (c : MuJoCoController) (servo : ℤ) : Except PyErr ℚ :=
  pyGet c.qpos servo

/-- The method `get_status` (lines 250-262). -/
def get_status (_c : MuJoCoController) (_servo : ℤ) : ℤ := 0

/-- The method `get_moving_status` (lines 264-276). -/
def get_moving_status (_c : MuJoCoController) (_servo : ℤ) : ℤ := 0

/-! ## Helper lemmas about Python-style indexing -/

theorem pyIdx_natCast (n i : ℕ) (h : i < n) : pyIdx n (i : ℤ) = some i := by
  unfold pyIdx
  rw [if_pos (by exact_mod_cast Nat.zero_le i), if_pos (by exact_mod_cast h)]
  simp

theorem pyIdx_none (n : ℕ) (i : ℤ) (h : i < -(n : ℤ) ∨ (n : ℤ) ≤ i) :
    pyIdx n i = none := by
  unfold pyIdx
  rcases h with h | h
  · rw [if_neg (by omega), if_neg (by omega)]
  · rw [if_pos (by omega), if_neg (by omega)]

theorem list_getElem?_lt {α : Type} (l : List α) (i : ℕ) (d : α) (h : i < l.length) :
    l[i]? = some (l.getD i d) := by
  induction l generalizing i with
  | nil => simp at h
  | cons a t ih =>
    cases i with
    | zero => simp
    | succ j =>
      simp only [List.getElem?_cons_succ, List.getD_cons_succ]
      exact ih j (by simpa using Nat.lt_of_succ_lt_succ h)

theorem pyGet_natCast {α : Type} (xs : List α) (i : ℕ) (d : α) (h : i < xs.length) :
    pyGet xs (i : ℤ) = Except.ok (xs.getD i d) := by
  unfold pyGet
  simp only [pyIdx_natCast _ _ h, list_getElem?_lt xs i d h]

theorem pyGet_none {α : Type} (xs : List α) (i : ℤ)
    (h : i < -(xs.length : ℤ) ∨ (xs.length : ℤ) ≤ i) :
    pyGet xs i = Except.error PyErr.indexError := by
  unfold pyGet
  rw [pyIdx_none _ _ h]

theorem pySet_natCast {α : Type} (xs : List α) (i : ℕ) (v : α) (h : i < xs.length) :
    pySet xs (i : ℤ) v = Except.ok (xs.set i v) := by
  unfold pySet
  rw [pyIdx_natCast _ _ h]

theorem pySet_none {α : Type} (xs : List α) (i : ℤ) (v : α)
    (h : i < -(xs.length : ℤ) ∨ (xs.length : ℤ) ≤ i) :
    pySet xs i v = Except.error PyErr.indexError := by
  unfold pySet
  rw [pyIdx_none _ _ h]

theorem list_getD_set_self {α : Type} (l : List α) (i : ℕ) (v d : α)
    (h : i < l.length) : (l.set i v).getD i d = v := by
  induction l generalizing i with
  | nil => simp at h
  | cons a t ih =>
    cases i with
    | zero => simp
    | succ j =>
      simp only [List.set_cons_succ, List.getD_cons_succ]
      exact ih j (by simpa using Nat.lt_of_succ_lt_succ h)

theorem list_getD_set_ne {α : Type} (l : List α) (i j : ℕ) (v d : α)
    (h : i ≠ j) : (l.set i v).getD j d = l.getD j d := by
  induction l generalizing i j with
  | nil => simp
  | cons a t ih =>
    cases i with
    | zero =>
      cases j with
      | zero => exact absurd rfl h
      | succ m => simp
    | succ k =>
      cases j with
      | zero => simp
      | succ m =>
        simp only [List.set_cons_succ, List.getD_cons_succ]
        exact ih k m (fun hk => h (by rw [hk]))

/-! ## Structure of the control-writing loop -/

theorem step_servo_nu (c : MuJoCoController) (s : ℕ) : (step_servo c s).nu = c.nu := by
  unfold step_servo; split <;> rfl

theorem step_servo_timestep (c : MuJoCoController) (s : ℕ) :
    (step_servo c s).timestep = c.timestep := by
  unfold step_servo; split <;> rfl

theorem step_servo_torque (c : MuJoCoController) (s : ℕ) :
    (step_servo c s).torque_enabled = c.torque_enabled := by
  unfold step_servo; split <;> rfl

theorem step_servo_tv (c : MuJoCoController) (s : ℕ) :
    (step_servo c s).target_velocity = c.target_velocity := by
  unfold step_servo; split <;> rfl

theorem step_servo_tp (c : MuJoCoController) (s : ℕ) :
    (step_servo c s).target_position = c.target_position := by
  unfold step_servo; split <;> rfl

theorem step_servo_qpos (c : MuJoCoController) (s : ℕ) :
    (step_servo c s).qpos = c.qpos := by
  unfold step_servo; split <;> rfl

theorem step_servo_sens (c : MuJoCoController) (s : ℕ) :
    (step_servo c s).sensordata = c.sensordata := by
  unfold step_servo; split <;> rfl

theorem step_servo_ctrl_len (c : MuJoCoController) (s : ℕ) :
    (step_servo c s).ctrl.length = c.ctrl.length := by
  unfold step_servo; split <;> simp

theorem step_servo_cmd_eq (c : MuJoCoController) (s : ℕ) :
    servo_cmd (step_servo c s) = servo_cmd c := by
  funext j
  unfold servo_cmd
  rw [step_servo_tp, step_servo_tv, step_servo_timestep, step_servo_qpos]

theorem foldl_step_servo_nu (l : List ℕ) (c : MuJoCoController) :
    (l.foldl step_servo c).nu = c.nu := by
  induction l generalizing c with
  | nil => rfl
  | cons a t ih => rw [List.foldl_cons, ih, step_servo_nu]

theorem foldl_step_servo_timestep (l : List ℕ) (c : MuJoCoController) :
    (l.foldl step_servo c).timestep = c.timestep := by
  induction l generalizing c with
  | nil => rfl
  | cons a t ih => rw [List.foldl_cons, ih, step_servo_timestep]

theorem foldl_step_servo_torque (l : List ℕ) (c : MuJoCoController) :
    (l.foldl step_servo c).torque_enabled = c.torque_enabled := by
  induction l generalizing c with
  | nil => rfl
  | cons a t ih => rw [List.foldl_cons, ih, step_servo_torque]

theorem foldl_step_servo_tv (l : List ℕ) (c : MuJoCoController) :
    (l.foldl step_servo c).target_velocity = c.target_velocity := by
  induction l generalizing c with
  | nil => rfl
  | cons a t ih => rw [List.foldl_cons, ih, step_servo_tv]

theorem foldl_step_servo_tp (l : List ℕ) (c : MuJoCoController) :
    (l.foldl step_servo c).target_position = c.target_position := by
  induction l generalizing c with
  | nil => rfl
  | cons a t ih => rw [List.foldl_cons, ih, step_servo_tp]

theorem foldl_step_servo_qpos (l : List ℕ) (c : MuJoCoController) :
    (l.foldl step_servo c).qpos = c.qpos := by
  induction l generalizing c with
  | nil => rfl
  | cons a t ih => rw [List.foldl_cons, ih, step_servo_qpos]

theorem foldl_step_servo_sens (l : List ℕ) (c : MuJoCoController) :
    (l.foldl step_servo c).sensordata = c.sensordata := by
  induction l generalizing c with
  | nil => rfl
  | cons a t ih => rw [List.foldl_cons, ih, step_servo_sens]

theorem foldl_step_servo_ctrl_len (l : List ℕ) (c : MuJoCoController) :
    (l.foldl step_servo c).ctrl.length = c.ctrl.length := by
  induction l generalizing c with
  | nil => rfl
  | cons a t ih => rw [List.foldl_cons, ih, step_servo_ctrl_len]

theorem foldl_step_servo_cmd (l : List ℕ) (c : MuJoCoController) :
    servo_cmd (l.foldl step_servo c) = servo_cmd c := by
  induction l generalizing c with
  | nil => rfl
  | cons a t ih => rw [List.foldl_cons, ih, step_servo_cmd_eq]

theorem foldl_step_servo_ctrl_untouched (l : List ℕ) (c : MuJoCoController) (i : ℕ)
    (h : ∀ j ∈ l, j ≠ i) :
    (l.foldl step_servo c).ctrl.getD i 0 = c.ctrl.getD i 0 := by
  induction l generalizing c with
  | nil => rfl
  | cons a t ih =>
    rw [List.foldl_cons, ih _ (fun j hj => h j (List.mem_cons_of_mem a hj))]
    unfold step_servo
    split
    · exact list_getD_set_ne _ _ _ _ _ (h a (List.mem_cons_self a t))
    · rfl

theorem step_servo_ctrl_getD_ne (c : MuJoCoController) (s i : ℕ) (h : s ≠ i) :
    (step_servo c s).ctrl.getD i 0 = c.ctrl.getD i 0 := by
  unfold step_servo
  split
  · exact list_getD_set_ne _ _ _ _ _ h
  · rfl

theorem step_servo_ctrl_getD_self (c : MuJoCoController) (i : ℕ)
    (h : i < c.ctrl.length) :
    (step_servo c i).ctrl.getD i 0 =
      if c.torque_enabled.getD i false = true then servo_cmd c i
      else c.ctrl.getD i 0 := by
  unfold step_servo
  split
  · exact list_getD_set_self _ _ _ _ h
  · rfl

theorem foldl_range_ctrl_getD (n : ℕ) (c : MuJoCoController) (i : ℕ)
    (hi : i < n) (hlen : i < c.ctrl.length) :
    ((List.range n).foldl step_servo c).ctrl.getD i 0 =
      if c.torque_enabled.getD i false = true then servo_cmd c i
      else c.ctrl.getD i 0 := by
  induction n with
  | zero => omega
  | succ m ih =>
    rw [List.range_succ, List.foldl_append, List.foldl_cons, List.foldl_nil]
    rcases Nat.lt_or_ge i m with hm | hm
    · rw [step_servo_ctrl_getD_ne _ _ _ (by omega)]
      exact ih hm
    · have hieq : i = m := by omega
      subst hieq
      rw [step_servo_ctrl_getD_self _ _ (by rw [foldl_step_servo_ctrl_len]; exact hlen)]
      rw [foldl_step_servo_torque, foldl_step_servo_cmd]
      split
      · rfl
      · exact foldl_step_servo_ctrl_untouched _ _ _
          (fun j hj => by have := List.mem_range.mp hj; omega)

theorem step_ctrl_getD (c : MuJoCoController) (i : ℕ)
    (hi : i < c.nu) (hlen : i < c.ctrl.length) :
    (step_ctrl c).ctrl.getD i 0 =
      if c.torque_enabled.getD i false = true then servo_cmd c i
      else c.ctrl.getD i 0 :=
  foldl_range_ctrl_getD c.nu c i hi hlen

/-! ## Scalar facts about the rate-limited step -/

theorem np_clip_mem (x m : ℚ) (hm : 0 ≤ m) :
    -m ≤ np_clip x (-m) m ∧ np_clip x (-m) m ≤ m := by
  unfold np_clip
  exact ⟨le_min (le_max_right x (-m)) (neg_le_self hm), min_le_right _ _⟩

theorem abs_np_clip_le (x m : ℚ) (hm : 0 ≤ m) : |np_clip x (-m) m| ≤ m :=
  abs_le.mpr (np_clip_mem x m hm)

theorem np_clip_of_abs_le (x m : ℚ) (h : |x| ≤ m) : np_clip x (-m) m = x := by
  rcases abs_le.mp h with ⟨h1, h2⟩
  unfold np_clip
  rw [max_eq_left h1, min_eq_left h2]

theorem rate_limited_next_sub (T v t p : ℚ) :
    rate_limited_next T v t p - p = np_clip (T - p) (-(v * t)) (v * t) := by
  simp only [rate_limited_next]
  ring

theorem rate_limited_next_abs_step (T v t p : ℚ) (hm : 0 ≤ v * t) :
    |rate_limited_next T v t p - p| ≤ v * t := by
  rw [rate_limited_next_sub]
  exact abs_np_clip_le (T - p) (v * t) hm

theorem rate_limited_next_close (T v t p : ℚ) (h : |T - p| ≤ v * t) :
    rate_limited_next T v t p = T := by
  simp only [rate_limited_next]
  rw [np_clip_of_abs_le _ _ h]
  ring

theorem rate_limited_next_fixed (T v t : ℚ) (hm : 0 ≤ v * t) :
    rate_limited_next T v t T = T :=
  rate_limited_next_close T v t T (by simpa using hm)

theorem rate_limited_next_far (T v t p : ℚ) (hm : 0 ≤ v * t)
    (h : v * t ≤ |T - p|) :
    |T - rate_limited_next T v t p| = |T - p| - v * t := by
  simp only [rate_limited_next, np_clip]
  rcases le_or_lt 0 (T - p) with hd | hd
  · rw [abs_of_nonneg hd] at h ⊢
    rw [max_eq_left (by linarith), min_eq_right h, abs_of_nonneg (by linarith)]
    ring
  · rw [abs_of_neg hd] at h ⊢
    rw [max_eq_right (by linarith), min_eq_left (by linarith),
      abs_of_nonpos (by linarith)]
    ring

theorem rate_limited_next_mono (T v t p : ℚ) (hm : 0 ≤ v * t) :
    |T - rate_limited_next T v t p| ≤ |T - p| := by
  rcases le_or_lt (|T - p|) (v * t) with h | h
  · rw [rate_limited_next_close T v t p h]
    simp
  · rw [rate_limited_next_far T v t p hm (le_of_lt h)]
    linarith

theorem rate_limited_next_reach (T v t : ℚ) (hm : 0 < v * t) :
    ∀ (k : ℕ) (p : ℚ), |T - p| ≤ k * (v * t) →
      (rate_limited_next T v t)^[k] p = T := by
  intro k
  induction k with
  | zero =>
    intro p hp
    simp only [Nat.cast_zero, zero_mul] at hp
    have : T - p = 0 := abs_eq_zero.mp (le_antisymm hp (abs_nonneg _))
    simp [show p = T by linarith]
  | succ n ih =>
    intro p hp
    rw [Function.iterate_succ_apply]
    rcases le_or_lt (|T - p|) (v * t) with h | h
    · rw [rate_limited_next_close T v t p h]
      exact Function.iterate_fixed (rate_limited_next_fixed T v t (le_of_lt hm)) n
    · apply ih
      rw [rate_limited_next_far T v t p (le_of_lt hm) (le_of_lt h)]
      push_cast at hp ⊢
      linarith

/-! ## Projections of one tick -/

theorem _step_ctrl_eq (mj : (List ℚ × List ℚ) → List ℚ → List ℚ × List ℚ)
    (c : MuJoCoController) : (_step mj c).ctrl = (step_ctrl c).ctrl := rfl

theorem _step_torque (mj : (List ℚ × List ℚ) → List ℚ → List ℚ × List ℚ)
    (c : MuJoCoController) : (_step mj c).torque_enabled = c.torque_enabled :=
  foldl_step_servo_torque _ _

theorem _step_tv (mj : (List ℚ × List ℚ) → List ℚ → List ℚ × List ℚ)
    (c : MuJoCoController) : (_step mj c).target_velocity = c.target_velocity :=
  foldl_step_servo_tv _ _

theorem _step_tp (mj : (List ℚ × List ℚ) → List ℚ → List ℚ × List ℚ)
    (c : MuJoCoController) : (_step mj c).target_position = c.target_position :=
  foldl_step_servo_tp _ _

theorem _step_timestep (mj : (List ℚ × List ℚ) → List ℚ → List ℚ × List ℚ)
    (c : MuJoCoController) : (_step mj c).timestep = c.timestep :=
  foldl_step_servo_timestep _ _

theorem _step_nu (mj : (List ℚ × List ℚ) → List ℚ → List ℚ × List ℚ)
    (c : MuJoCoController) : (_step mj c).nu = c.nu :=
  foldl_step_servo_nu _ _

/-! ## Reduction lemmas for the facade operations at an in-range index -/

theorem set_velocity_err (c : MuJoCoController) (i : ℕ) (v : ℚ)
    (h1 : i < c.torque_enabled.length)
    (hte : c.torque_enabled.getD i false = true) :
    set_velocity c (i : ℤ) v = (c, some PyErr.invalidState) := by
  unfold set_velocity
  rw [pyGet_natCast c.torque_enabled i false h1, hte]
  rfl

theorem set_velocity_ok (c : MuJoCoController) (i : ℕ) (v : ℚ)
    (h1 : i < c.torque_enabled.length) (h2 : i < c.target_velocity.length)
    (hte : c.torque_enabled.getD i false = false) :
    set_velocity c (i : ℤ) v =
      ({ c with timestep := adapt_timestep v,
                target_velocity := c.target_velocity.set i v }, none) := by
  unfold set_velocity
  rw [pyGet_natCast c.torque_enabled i false h1]
  simp only [hte, Bool.false_eq_true, if_false]
  rw [pySet_natCast c.target_velocity i v h2]

theorem set_position_err (c : MuJoCoController) (i : ℕ) (p : ℚ)
    (h1 : i < c.torque_enabled.length)
    (hte : c.torque_enabled.getD i false = false) :
    set_position c (i : ℤ) p = (c, some PyErr.invalidState) := by
  unfold set_position
  rw [pyGet_natCast c.torque_enabled i false h1, hte]
  rfl

theorem set_position_ok (c : MuJoCoController) (i : ℕ) (p : ℚ)
    (h1 : i < c.torque_enabled.length) (h2 : i < c.target_position.length)
    (hte : c.torque_enabled.getD i false = true) :
    set_position c (i : ℤ) p =
      ({ c with target_position := c.target_position.set i p }, none) := by
  unfold set_position
  rw [pyGet_natCast c.torque_enabled i false h1]
  simp only [hte, Bool.true_eq_false, if_false]
  rw [pySet_natCast c.target_position i p h2]

theorem get_force_err (c : MuJoCoController) (i : ℕ)
    (h1 : i < c.torque_enabled.length)
    (hte : c.torque_enabled.getD i false = false) :
    get_force c (i : ℤ) = Except.error PyErr.invalidState := by
  unfold get_force
  rw [pyGet_natCast c.torque_enabled i false h1, hte]
  rfl

theorem drop_take_three (l : List ℚ) (k : ℕ) (h : k + 3 ≤ l.length) :
    (l.drop k).take 3 = [l.getD k 0, l.getD (k + 1) 0, l.getD (k + 2) 0] := by
  induction k generalizing l with
  | zero =>
    match l, h with
    | a :: b :: d :: t, _ => simp
  | succ m ih =>
    match l, h with
    | a :: t, h =>
      simp only [List.drop_succ_cons, List.getD_cons_succ]
      exact ih t (by simpa using Nat.le_of_succ_le_succ h)

theorem get_force_ok (c : MuJoCoController) (i : ℕ)
    (h1 : i < c.torque_enabled.length)
    (hte : c.torque_enabled.getD i false = true)
    (h2 : i < c.actuator_trnid.length)
    (h3 : c.actuator_trnid.getD i 0 < c.jnt_axis.length)
    (h4 : 3 * c.actuator_trnid.getD i 0 + 3 ≤ c.sensordata.length) :
    get_force c (i : ℤ) =
      Except.ok
        ((c.jnt_axis.getD (c.actuator_trnid.getD i 0) (0, 0, 0)).1 *
            c.sensordata.getD (3 * c.actuator_trnid.getD i 0) 0 +
          (c.jnt_axis.getD (c.actuator_trnid.getD i 0) (0, 0, 0)).2.1 *
            c.sensordata.getD (3 * c.actuator_trnid.getD i 0 + 1) 0 +
          (c.jnt_axis.getD (c.actuator_trnid.getD i 0) (0, 0, 0)).2.2 *
            c.sensordata.getD (3 * c.actuator_trnid.getD i 0 + 2) 0) := by
  unfold get_force
  rw [pyGet_natCast c.torque_enabled i false h1, hte]
  simp only [Bool.true_eq_false, if_true]
  rw [pyGet_natCast c.actuator_trnid i 0 h2]
  simp only []
  rw [pyGet_natCast c.jnt_axis (c.actuator_trnid.getD i 0) (0, 0, 0) h3]
  simp only []
  rw [drop_take_three c.sensordata (3 * c.actuator_trnid.getD i 0) h4]

/-! ## Concrete states and backends used to exercise the theorems -/

/-- A controller with two actuators in which servo 0 is torque-enabled. -/
def sample_on : MuJoCoController :=
  { nu := 2, timestep := mkRat 1 500, running := true, simul_started := 1,
    viewer_started := 1, torque_enabled := [true, false],
    target_velocity := [1, 0], target_position := [mkRat 6 5, 0], qpos := [0, 0],
    ctrl := [0, 0], sensordata := [2, 3, 5, 7, 11, 13],
    actuator_trnid := [0, 1], jnt_axis := [(1, 0, 0), (0, 0, 1)] }

/-- A freshly constructed, not yet started controller with two actuators and
every torque flag cleared. -/
def sample_idle : MuJoCoController :=
  { nu := 2, timestep := mkRat 1 500, running := false, simul_started := 0,
    viewer_started := 0, torque_enabled := [false, false],
    target_velocity := [0, 0], target_position := [0, 0], qpos := [0, 0],
    ctrl := [0, 0], sensordata := [0, 0, 0, 0, 0, 0],
    actuator_trnid := [0, 1], jnt_axis := [(1, 0, 0), (0, 0, 1)] }

/-- A backend step that leaves positions and sensors unchanged. -/
def mj_id : (List ℚ × List ℚ) → List ℚ → List ℚ × List ℚ := fun qs _ => qs

/-- The backend model named by claim C4: the integration step moves each
generalized position to the control command written for it. -/
def backend_move : (List ℚ × List ℚ) → List ℚ → List ℚ × List ℚ :=
  fun qs ctrl => (ctrl, qs.2)

/-- A backend step that raises on every call. -/
def mj_fail : (List ℚ × List ℚ) → List ℚ → Except Unit (List ℚ × List ℚ) :=
  fun _ _ => Except.error ()

/-! ## The claims -/

/-- C1: for every servo index i in [0, numActuators) with torque enabled and
a non-negative target velocity, a single physics tick writes for actuator i
the rate-limited command, and that command differs from the backend
generalized position read at the start of the tick by at most
targetVelocity * timestep, whatever the target position is.  The timestep is
non-negative in every reachable state (it starts at 0.002 and is only ever
rewritten to a value of `adapt_timestep`, which lies in [0.002, 0.02]). -/
theorem rate_limit_law (c : MuJoCoController)
    (mj : (List ℚ × List ℚ) → List ℚ → List ℚ × List ℚ) (i : ℕ)
    (hA : ArrLen c) (hi : i < c.nu)
    (hte : c.torque_enabled.getD i false = true)
    (hv : 0 ≤ c.target_velocity.getD i 0) (ht : 0 ≤ c.timestep) :
    (_step mj c).ctrl.getD i 0 = servo_cmd c i ∧
    |(_step mj c).ctrl.getD i 0 - c.qpos.getD i 0| ≤
      c.target_velocity.getD i 0 * c.timestep := by
  have hlen : i < c.ctrl.length := hA.2.2.2.2 ▸ hi
  have h2 : (_step mj c).ctrl.getD i 0 = servo_cmd c i := by
    rw [_step_ctrl_eq, step_ctrl_getD c i hi hlen, if_pos hte]
  refine ⟨h2, ?_⟩
  rw [h2]
  exact rate_limited_next_abs_step _ _ _ _
    (mul_nonneg hv ht)

theorem rate_limit_law_witness :
    (ArrLen sample_on ∧ 0 < sample_on.nu ∧
      sample_on.torque_enabled.getD 0 false = true ∧
      (0 : ℚ) ≤ sample_on.target_velocity.getD 0 0 ∧
      (0 : ℚ) ≤ sample_on.timestep) ∧
    ((_step mj_id sample_on).ctrl.getD 0 0 = servo_cmd sample_on 0 ∧
      |(_step mj_id sample_on).ctrl.getD 0 0 - sample_on.qpos.getD 0 0| ≤
        sample_on.target_velocity.getD 0 0 * sample_on.timestep) :=
  ⟨by decide,
    rate_limit_law sample_on mj_id 0 (by decide) (by decide) (by decide)
      (by decide) (by decide)⟩

/-- C9: during a single physics tick, a servo whose torque flag is cleared
gets no control command written: its control entry after the tick is its
control entry before the tick, and only the backend integration step runs. -/
theorem disabled_servo_ctrl_unchanged (c : MuJoCoController)
    (mj : (List ℚ × List ℚ) → List ℚ → List ℚ × List ℚ) (i : ℕ)
    (hA : ArrLen c) (hi : i < c.nu)
    (hte : c.torque_enabled.getD i false = false) :
    (_step mj c).ctrl.getD i 0 = c.ctrl.getD i 0 := by
  have hlen : i < c.ctrl.length := hA.2.2.2.2 ▸ hi
  rw [_step_ctrl_eq, step_ctrl_getD c i hi hlen, if_neg (by rw [hte]; simp)]

theorem disabled_servo_ctrl_unchanged_witness :
    (ArrLen sample_on ∧ 1 < sample_on.nu ∧
      sample_on.torque_enabled.getD 1 false = false) ∧
    (_step mj_id sample_on).ctrl.getD 1 0 = sample_on.ctrl.getD 1 0 :=
  ⟨by decide,
    disabled_servo_ctrl_unchanged sample_on mj_id 1 (by decide) (by decide)
      (by decide)⟩

/-- C2: for an in-range servo index, setVelocity raises the invalid-state
error exactly when torque is enabled and setPosition raises it exactly when
torque is disabled; each successful call stores the given value. -/
theorem set_velocity_set_position_preconditions (c : MuJoCoController) (i : ℕ)
    (v p : ℚ) (hA : ArrLen c) (hi : i < c.nu) :
    (c.torque_enabled.getD i false = true →
      set_velocity c (i : ℤ) v = (c, some PyErr.invalidState)) ∧
    (c.torque_enabled.getD i false = false →
      (set_velocity c (i : ℤ) v).2 = none ∧
      (set_velocity c (i : ℤ) v).1.target_velocity.getD i 0 = v) ∧
    (c.torque_enabled.getD i false = false →
      set_position c (i : ℤ) p = (c, some PyErr.invalidState)) ∧
    (c.torque_enabled.getD i false = true →
      (set_position c (i : ℤ) p).2 = none ∧
      (set_position c (i : ℤ) p).1.target_position.getD i 0 = p) := by
  have h1 : i < c.torque_enabled.length := hA.1 ▸ hi
  have h2 : i < c.target_velocity.length := hA.2.1 ▸ hi
  have h3 : i < c.target_position.length := hA.2.2.1 ▸ hi
  refine ⟨fun hte => set_velocity_err c i v h1 hte, fun hte => ?_,
    fun hte => set_position_err c i p h1 hte, fun hte => ?_⟩
  · rw [set_velocity_ok c i v h1 h2 hte]
    exact ⟨rfl, list_getD_set_self _ _ _ _ h2⟩
  · rw [set_position_ok c i p h1 h3 hte]
    exact ⟨rfl, list_getD_set_self _ _ _ _ h3⟩

theorem set_velocity_set_position_preconditions_witness :
    (ArrLen sample_on ∧ 0 < sample_on.nu ∧
      sample_on.torque_enabled.getD 0 false = true) ∧
    (set_velocity sample_on 0 3 = (sample_on, some PyErr.invalidState) ∧
      (set_position sample_on 0 1).2 = none ∧
      (set_position sample_on 0 1).1.target_position.getD 0 0 = 1) :=
  ⟨by decide,
    (set_velocity_set_position_preconditions sample_on 0 3 1 (by decide)
        (by decide)).1 (by decide),
    (set_velocity_set_position_preconditions sample_on 0 3 1 (by decide)
        (by decide)).2.2.2 (by decide)⟩

/-- C10: when setVelocity, setPosition or getForce fails its invalid-state
precondition check, the whole controller state is returned unchanged; in
particular a rejected setVelocity has not recomputed the timestep, because
the raise on line 206 precedes the timestep assignment on line 208. -/
theorem precondition_failure_atomic (c : MuJoCoController) (i : ℕ)
    (v p : ℚ) (hA : ArrLen c) (hi : i < c.nu) :
    (c.torque_enabled.getD i false = true →
      set_velocity c (i : ℤ) v = (c, some PyErr.invalidState)) ∧
    (c.torque_enabled.getD i false = false →
      set_position c (i : ℤ) p = (c, some PyErr.invalidState)) ∧
    (c.torque_enabled.getD i false = false →
      get_force c (i : ℤ) = Except.error PyErr.invalidState) := by
  have h1 : i < c.torque_enabled.length := hA.1 ▸ hi
  exact ⟨fun hte => set_velocity_err c i v h1 hte,
    fun hte => set_position_err c i p h1 hte,
    fun hte => get_force_err c i h1 hte⟩

theorem precondition_failure_atomic_witness :
    (ArrLen sample_on ∧ 1 < sample_on.nu ∧
      sample_on.torque_enabled.getD 1 false = false) ∧
    (set_position sample_on 1 7 = (sample_on, some PyErr.invalidState) ∧
      get_force sample_on 1 = Except.error PyErr.invalidState) :=
  ⟨by decide,
    (precondition_failure_atomic sample_on 1 2 7 (by decide) (by decide)).2.1
      (by decide),
    (precondition_failure_atomic sample_on 1 2 7 (by decide) (by decide)).2.2
      (by decide)⟩

/-- C8: a second start while already running is a no-op that leaves exactly
one launched instance of each loop, and a close while already not running is
a no-op. -/
theorem lifecycle_idempotent (c : MuJoCoController) :
    (c.running = true → _start c = c) ∧
    (c.running = false → close c = c) ∧
    (c.running = false →
      _start (_start c) = _start c ∧
      (_start (_start c)).simul_started = c.simul_started + 1 ∧
      (_start (_start c)).viewer_started = c.viewer_started + 1 ∧
      (_start (_start c)).running = true) := by
  refine ⟨fun hr => ?_, fun hr => ?_, fun hr => ?_⟩
  · unfold _start
    rw [if_pos hr]
  · unfold close
    rw [hr]
    simp
  · unfold _start
    rw [hr]
    simp

theorem lifecycle_idempotent_witness :
    (sample_on.running = true ∧ _start sample_on = sample_on) ∧
    (sample_idle.running = false ∧
      _start (_start sample_idle) = _start sample_idle ∧
      (_start (_start sample_idle)).simul_started =
        sample_idle.simul_started + 1 ∧
      (_start (_start sample_idle)).viewer_started =
        sample_idle.viewer_started + 1 ∧
      (_start (_start sample_idle)).running = true ∧
      close sample_idle = sample_idle) :=
  ⟨⟨by decide, (lifecycle_idempotent sample_on).1 (by decide)⟩,
    ⟨by decide, ((lifecycle_idempotent sample_idle).2.2 (by decide)).1,
      ((lifecycle_idempotent sample_idle).2.2 (by decide)).2.1,
      ((lifecycle_idempotent sample_idle).2.2 (by decide)).2.2.1,
      ((lifecycle_idempotent sample_idle).2.2 (by decide)).2.2.2,
      (lifecycle_idempotent sample_idle).2.1 (by decide)⟩⟩

/-- C7 fails as stated: a negative in-range index does not raise.  Python
list indexing treats an index in [-numActuators, -1] as an alias counted
from the end, so `set_torque` at index -1 on a two-servo controller
succeeds and flips the flag of servo 1. -/
theorem negative_index_aliases_last_servo :
    (set_torque sample_idle (-1) true).2 = none ∧
    (set_torque sample_idle (-1) true).1.torque_enabled = [false, true] := by
  decide

/-- C7 as amended: for every per-servo facade operation and every index
at or above numActuators or strictly below -numActuators, the call raises
an index error from the very first list access and hands back the state
unchanged. -/
theorem out_of_range_index_rejected (c : MuJoCoController) (servo : ℤ)
    (hA : ArrLen c) (h : servo < -(c.nu : ℤ) ∨ (c.nu : ℤ) ≤ servo)
    (b : Bool) (v p : ℚ) :
    set_torque c servo b = (c, some PyErr.indexError) ∧
    get_torque c servo = Except.error PyErr.indexError ∧
    set_velocity c servo v = (c, some PyErr.indexError) ∧
    get_velocity c servo = Except.error PyErr.indexError ∧
    set_position c servo p = (c, some PyErr.indexError) ∧
    get_position c servo = Except.error PyErr.indexError ∧
    get_force c servo = Except.error PyErr.indexError ∧
    factory c servo = (c, some PyErr.indexError) ∧
    reboot c servo = (c, some PyErr.indexError) := by
  have hte : servo < -(c.torque_enabled.length : ℤ) ∨
      (c.torque_enabled.length : ℤ) ≤ servo := by rw [hA.1]; exact h
  have htv : servo < -(c.target_velocity.length : ℤ) ∨
      (c.target_velocity.length : ℤ) ≤ servo := by rw [hA.2.1]; exact h
  have hq : servo < -(c.qpos.length : ℤ) ∨
      (c.qpos.length : ℤ) ≤ servo := by rw [hA.2.2.2.1]; exact h
  refine ⟨?_, ?_, ?_, ?_, ?_, ?_, ?_, ?_, ?_⟩
  · unfold set_torque
    rw [pySet_none c.torque_enabled servo b hte]
  · unfold get_torque
    rw [pyGet_none c.torque_enabled servo hte]
  · unfold set_velocity
    rw [pyGet_none c.torque_enabled servo hte]
  · unfold get_velocity
    rw [pyGet_none c.target_velocity servo htv]
  · unfold set_position
    rw [pyGet_none c.torque_enabled servo hte]
  · unfold get_position
    rw [pyGet_none c.qpos servo hq]
  · unfold get_force
    rw [pyGet_none c.torque_enabled servo hte]
  · unfold factory
    rw [pySet_none c.torque_enabled servo false hte]
  · unfold reboot
    rw [pySet_none c.torque_enabled servo false hte]

theorem out_of_range_index_rejected_witness :
    (ArrLen sample_idle ∧
      ((5 : ℤ) < -(sample_idle.nu : ℤ) ∨ (sample_idle.nu : ℤ) ≤ 5)) ∧
    (set_torque sample_idle 5 true = (sample_idle, some PyErr.indexError) ∧
      get_force sample_idle 5 = Except.error PyErr.indexError) :=
  ⟨⟨by decide, by decide⟩,
    (out_of_range_index_rejected sample_idle 5 (by decide) (by decide)
        true 0 0).1,
    (out_of_range_index_rejected sample_idle 5 (by decide) (by decide)
        true 0 0).2.2.2.2.2.2.1⟩

/-- C6, behavior of the code at the failing input: with the run flag set and
a backend step that raises, the loop body propagates the error (the loop
stops, no handler exists on the path), yet the run flag is still set
afterwards - the code never transitions RunState to not-running on an
unexpected backend failure, contrary to the design requirement. -/
theorem simul_loop_failure_keeps_running :
    (_simul_loop_iter mj_fail sample_on).2 = some PyErr.backendError ∧
    (_simul_loop_iter mj_fail sample_on).1.running = true := by
  decide

/-- C5: for an in-range servo index, getForce raises the invalid-state error
when torque is disabled, and when torque is enabled it returns the dot
product of the motion-axis vector of the joint driven by the actuator with
the three sensed torque components of that joint, read from the sensor
array slice starting at 3 * jointIndex. -/
theorem get_force_spec (c : MuJoCoController) (i : ℕ)
    (hA : ArrLen c) (hi : i < c.nu)
    (htr : c.actuator_trnid.length = c.nu)
    (haxis : c.actuator_trnid.getD i 0 < c.jnt_axis.length)
    (hsens : 3 * c.actuator_trnid.getD i 0 + 3 ≤ c.sensordata.length) :
    (c.torque_enabled.getD i false = false →
      get_force c (i : ℤ) = Except.error PyErr.invalidState) ∧
    (c.torque_enabled.getD i false = true →
      get_force c (i : ℤ) =
        Except.ok
          ((c.jnt_axis.getD (c.actuator_trnid.getD i 0) (0, 0, 0)).1 *
              c.sensordata.getD (3 * c.actuator_trnid.getD i 0) 0 +
            (c.jnt_axis.getD (c.actuator_trnid.getD i 0) (0, 0, 0)).2.1 *
              c.sensordata.getD (3 * c.actuator_trnid.getD i 0 + 1) 0 +
            (c.jnt_axis.getD (c.actuator_trnid.getD i 0) (0, 0, 0)).2.2 *
              c.sensordata.getD (3 * c.actuator_trnid.getD i 0 + 2) 0)) :=
  ⟨fun hte => get_force_err c i (hA.1 ▸ hi) hte,
    fun hte => get_force_ok c i (hA.1 ▸ hi) hte (htr ▸ hi) haxis hsens⟩

theorem get_force_spec_witness :
    (ArrLen sample_on ∧ 0 < sample_on.nu ∧
      sample_on.actuator_trnid.length = sample_on.nu ∧
      sample_on.actuator_trnid.getD 0 0 < sample_on.jnt_axis.length ∧
      3 * sample_on.actuator_trnid.getD 0 0 + 3 ≤
        sample_on.sensordata.length ∧
      sample_on.torque_enabled.getD 0 false = true) ∧
    get_force sample_on ((0 : ℕ) : ℤ) = Except.ok 2 := by
  refine ⟨by decide, ?_⟩
  rw [(get_force_spec sample_on 0 (by decide) (by decide) (by decide)
      (by decide) (by decide)).2 (by decide)]
  norm_num [sample_on]

/-- The numeral value of the modelled np.pi, for arithmetic tactics. -/
theorem np_pi_val : np_pi = 884279719003555 / 281474976710656 := by
  rw [np_pi, Rat.mkRat_eq_div]
  norm_num

theorem np_pi_pos : 0 < np_pi := by
  rw [np_pi_val]
  norm_num

/-- C3: every accepted setVelocity call recomputes the single global
timestep as the rounded clamped linear interpolation that maps the velocity
anchor np.pi/30 to timestep 0.02 and the anchor 61*np.pi/30 to 0.002 (so
the lower timestep anchor is strictly below the higher one); a velocity
below the low anchor produces exactly the timestep of the low anchor, a
velocity above the high anchor exactly the timestep of the high anchor, and
an in-between velocity the rounded value of the linear interpolant. -/
theorem adaptive_timestep_clamped (c : MuJoCoController) (i : ℕ) (v : ℚ)
    (hA : ArrLen c) (hi : i < c.nu)
    (hte : c.torque_enabled.getD i false = false) :
    ((set_velocity c (i : ℤ) v).2 = none ∧
      (set_velocity c (i : ℤ) v).1.timestep = adapt_timestep v) ∧
    adapt_timestep v =
      np_round3 (np_interp v (np_pi / 30) (61 * np_pi / 30) 0.02 0.002) ∧
    ((0.002 : ℚ) < 0.02) ∧
    (∀ w : ℚ, w < np_pi / 30 →
      adapt_timestep w = adapt_timestep (np_pi / 30)) ∧
    (∀ w : ℚ, 61 * np_pi / 30 < w →
      adapt_timestep w = adapt_timestep (61 * np_pi / 30)) ∧
    adapt_timestep (np_pi / 30) = 0.02 ∧
    adapt_timestep (61 * np_pi / 30) = 0.002 ∧
    (∀ w : ℚ, np_pi / 30 ≤ w → w ≤ 61 * np_pi / 30 →
      adapt_timestep w =
        np_round3 (0.02 + (w - np_pi / 30) * (0.002 - 0.02) /
          (61 * np_pi / 30 - np_pi / 30))) := by
  have hpi := np_pi_pos
  have hanchor : np_pi / 30 < 61 * np_pi / 30 := by linarith
  have hlow : np_interp (np_pi / 30) (np_pi / 30) (61 * np_pi / 30)
      0.02 0.002 = 0.02 := by
    unfold np_interp
    rw [if_pos le_rfl]
  have hhigh : np_interp (61 * np_pi / 30) (np_pi / 30) (61 * np_pi / 30)
      0.02 0.002 = 0.002 := by
    unfold np_interp
    rw [if_neg (by linarith), if_pos le_rfl]
  have hr2 : np_round3 0.02 = 0.02 := by
    unfold np_round3 roundHalfEven
    norm_num
  have hr3 : np_round3 0.002 = 0.002 := by
    unfold np_round3 roundHalfEven
    norm_num
  refine ⟨?_, rfl, by norm_num, fun w hw => ?_, fun w hw => ?_, ?_, ?_,
    fun w hw1 hw2 => ?_⟩
  · rw [set_velocity_ok c i v (hA.1 ▸ hi) (hA.2.1 ▸ hi) hte]
    exact ⟨rfl, rfl⟩
  · unfold adapt_timestep np_interp
    rw [if_pos (le_of_lt hw), if_pos le_rfl]
  · unfold adapt_timestep
    rw [hhigh]
    unfold np_interp
    rw [if_neg (by linarith), if_pos (le_of_lt hw)]
  · unfold adapt_timestep
    rw [hlow, hr2]
  · unfold adapt_timestep
    rw [hhigh, hr3]
  · unfold adapt_timestep np_interp
    rcases eq_or_lt_of_le hw1 with heq | hlt
    · rw [if_pos (le_of_eq heq.symm), ← heq]
      norm_num
    · rcases eq_or_lt_of_le hw2 with heq2 | hlt2
      · have hne : 61 * np_pi / 30 - np_pi / 30 ≠ 0 :=
          sub_ne_zero.mpr (ne_of_gt hanchor)
        rw [if_neg (by linarith), if_pos (le_of_eq heq2.symm), heq2,
          mul_comm, mul_div_assoc, div_self hne, mul_one]
        norm_num
      · rw [if_neg (by linarith), if_neg (by linarith)]

theorem adaptive_timestep_clamped_witness :
    (ArrLen sample_idle ∧ 0 < sample_idle.nu ∧
      sample_idle.torque_enabled.getD 0 false = false) ∧
    ((set_velocity sample_idle 0 1).2 = none ∧
      (set_velocity sample_idle 0 1).1.timestep = adapt_timestep 1) :=
  ⟨by decide,
    (adaptive_timestep_clamped sample_idle 0 1 (by decide) (by decide)
        (by decide)).1⟩

/-- Repeated ticks against the moved-to-command backend preserve the control
state, and the position of a torque-enabled servo follows the scalar
rate-limited recurrence. -/
theorem tick_move_iterate (c : MuJoCoController) (i : ℕ)
    (hA : ArrLen c) (hi : i < c.nu)
    (hte : c.torque_enabled.getD i false = true) (k : ℕ) :
    ArrLen ((_step backend_move)^[k] c) ∧
    ((_step backend_move)^[k] c).nu = c.nu ∧
    ((_step backend_move)^[k] c).torque_enabled = c.torque_enabled ∧
    ((_step backend_move)^[k] c).target_velocity = c.target_velocity ∧
    ((_step backend_move)^[k] c).target_position = c.target_position ∧
    ((_step backend_move)^[k] c).timestep = c.timestep ∧
    ((_step backend_move)^[k] c).qpos.getD i 0 =
      (rate_limited_next (c.target_position.getD i 0)
        (c.target_velocity.getD i 0) c.timestep)^[k] (c.qpos.getD i 0) := by
  induction k with
  | zero => exact ⟨hA, rfl, rfl, rfl, rfl, rfl, rfl⟩
  | succ n ih =>
    obtain ⟨ihA, ihnu, ihte, ihtv, ihtp, ihts, ihq⟩ := ih
    set d := (_step backend_move)^[n] c with hd
    have hstep : (_step backend_move)^[n+1] c = _step backend_move d :=
      Function.iterate_succ_apply' _ _ _
    have hqpos : (_step backend_move d).qpos = (step_ctrl d).ctrl := rfl
    have hctrl : (_step backend_move d).ctrl = (step_ctrl d).ctrl := rfl
    have hctrl_len : (step_ctrl d).ctrl.length = d.ctrl.length :=
      foldl_step_servo_ctrl_len _ _
    have hdi : i < d.nu := ihnu ▸ hi
    have hdlen : i < d.ctrl.length := ihA.2.2.2.2 ▸ hdi
    have hdte : d.torque_enabled.getD i false = true := by rw [ihte]; exact hte
    have hq1 : (_step backend_move d).qpos.getD i 0 = servo_cmd d i := by
      rw [hqpos, step_ctrl_getD d i hdi hdlen, if_pos hdte]
    have hcmd : servo_cmd d i =
        rate_limited_next (c.target_position.getD i 0)
          (c.target_velocity.getD i 0) c.timestep (d.qpos.getD i 0) := by
      unfold servo_cmd
      rw [ihtp, ihtv, ihts]
    refine ⟨?_, ?_, ?_, ?_, ?_, ?_, ?_⟩
    · rw [hstep]
      refine ⟨?_, ?_, ?_, ?_, ?_⟩
      · rw [_step_torque, _step_nu]
        exact ihA.1
      · rw [_step_tv, _step_nu]
        exact ihA.2.1
      · rw [_step_tp, _step_nu]
        exact ihA.2.2.1
      · rw [hqpos, hctrl_len, _step_nu]
        exact ihA.2.2.2.2
      · rw [hctrl, hctrl_len, _step_nu]
        exact ihA.2.2.2.2
    · rw [hstep, _step_nu]
      exact ihnu
    · rw [hstep, _step_torque]
      exact ihte
    · rw [hstep, _step_tv]
      exact ihtv
    · rw [hstep, _step_tp]
      exact ihtp
    · rw [hstep, _step_timestep]
      exact ihts
    · rw [hstep, hq1, hcmd, ihq, Function.iterate_succ_apply']

/-- C4: for a torque-enabled servo with a fixed target position, a strictly
positive target velocity and a strictly positive timestep, repeated physics
ticks against the moved-to-command backend model shrink the distance to the
target monotonically, reach the target in finitely many ticks and stay
there; and when the distance is already at most targetVelocity * timestep a
single tick commands exactly the target position and lands on it. -/
theorem convergence_no_overshoot (c : MuJoCoController) (i : ℕ)
    (hA : ArrLen c) (hi : i < c.nu)
    (hte : c.torque_enabled.getD i false = true)
    (hv : 0 < c.target_velocity.getD i 0) (ht : 0 < c.timestep) :
    (∀ k : ℕ,
      |c.target_position.getD i 0 -
          ((_step backend_move)^[k + 1] c).qpos.getD i 0| ≤
        |c.target_position.getD i 0 -
          ((_step backend_move)^[k] c).qpos.getD i 0|) ∧
    (∃ N : ℕ, ∀ k : ℕ, N ≤ k →
      ((_step backend_move)^[k] c).qpos.getD i 0 =
        c.target_position.getD i 0) ∧
    (|c.target_position.getD i 0 - c.qpos.getD i 0| ≤
        c.target_velocity.getD i 0 * c.timestep →
      (_step backend_move c).ctrl.getD i 0 = c.target_position.getD i 0 ∧
      (_step backend_move c).qpos.getD i 0 = c.target_position.getD i 0) := by
  have hm : 0 < c.target_velocity.getD i 0 * c.timestep := mul_pos hv ht
  have bridge := tick_move_iterate c i hA hi hte
  refine ⟨fun k => ?_, ?_, fun hclose => ?_⟩
  · rw [(bridge k).2.2.2.2.2.2, (bridge (k + 1)).2.2.2.2.2.2,
      Function.iterate_succ_apply']
    exact rate_limited_next_mono _ _ _ _ (le_of_lt hm)
  · refine ⟨⌈|c.target_position.getD i 0 - c.qpos.getD i 0| /
      (c.target_velocity.getD i 0 * c.timestep)⌉₊, fun k hk => ?_⟩
    set N := ⌈|c.target_position.getD i 0 - c.qpos.getD i 0| /
      (c.target_velocity.getD i 0 * c.timestep)⌉₊ with hN
    have hdist : |c.target_position.getD i 0 - c.qpos.getD i 0| ≤
        (N : ℚ) * (c.target_velocity.getD i 0 * c.timestep) := by
      have h0 : |c.target_position.getD i 0 - c.qpos.getD i 0| /
          (c.target_velocity.getD i 0 * c.timestep) ≤ (N : ℚ) := Nat.le_ceil _
      rw [div_le_iff₀ hm] at h0
      linarith
    have hreach := rate_limited_next_reach (c.target_position.getD i 0)
      (c.target_velocity.getD i 0) c.timestep hm N (c.qpos.getD i 0) hdist
    rw [(bridge k).2.2.2.2.2.2, show k = (k - N) + N from (Nat.sub_add_cancel hk).symm,
      Function.iterate_add_apply, hreach]
    exact Function.iterate_fixed
      (rate_limited_next_fixed _ _ _ (le_of_lt hm)) _
  · have hlen : i < c.ctrl.length := hA.2.2.2.2 ▸ hi
    have hctrl : (_step backend_move c).ctrl.getD i 0 =
        c.target_position.getD i 0 := by
      rw [_step_ctrl_eq, step_ctrl_getD c i hi hlen, if_pos hte]
      exact rate_limited_next_close _ _ _ _ hclose
    refine ⟨hctrl, ?_⟩
    rw [show (_step backend_move c).qpos = (step_ctrl c).ctrl from rfl]
    rw [show (_step backend_move c).ctrl = (step_ctrl c).ctrl from rfl] at hctrl
    exact hctrl

theorem convergence_no_overshoot_witness :
    (ArrLen sample_on ∧ 0 < sample_on.nu ∧
      sample_on.torque_enabled.getD 0 false = true ∧
      (0 : ℚ) < sample_on.target_velocity.getD 0 0 ∧
      (0 : ℚ) < sample_on.timestep) ∧
    (∃ N : ℕ, ∀ k : ℕ, N ≤ k →
      ((_step backend_move)^[k] sample_on).qpos.getD 0 0 =
        sample_on.target_position.getD 0 0) :=
  ⟨by decide,
    (convergence_no_overshoot sample_on 0 (by decide) (by decide) (by decide)
        (by decide) (by decide)).2.1⟩
